import Mathlib

/-!
Verification development for the iterative-refinement / citation-ledger core of the
auto-paper-generator repository.  The Python sources `core/citation_manager.py` and
`core/expert_review.py` are shallowly embedded below: strings are Lean `String`
(operated on through their `List Char` data, mirroring Python code-point semantics),
Python `dict`s that rely on insertion order are association lists, Python floats are
modelled by exact rationals `ℚ` (every comparison relevant to the claims is far from
any float-rounding boundary), and fallible code paths return `Option`.  All recursion
is structural so every definition evaluates inside the kernel.
-/

/-- Python `str.isspace`-style whitespace used by `\s` and `str.strip` (ASCII range;
the sources only ever strip ASCII whitespace). -/
def pyIsSpace (c : Char) : Bool :=
  c.isWhitespace || c = Char.ofNat 11 || c = Char.ofNat 12

/-- List-of-characters version of `str.strip()`. -/
def pyStripL (l : List Char) : List Char :=
  ((l.dropWhile pyIsSpace).reverse.dropWhile pyIsSpace).reverse

/-- String version of `str.strip()`. -/
def pyStrip (s : String) : String := ⟨pyStripL s.data⟩

/-- Decides whether `p` is an initial segment of `l` (Python `str.startswith`). -/
def startsWithChars : List Char → List Char → Bool
  | [], _ => true
  | _ :: _, [] => false
  | a :: as, b :: bs => a = b && startsWithChars as bs

/-- Decides whether `n` occurs as a contiguous run inside `h` (Python `in` on strings). -/
def containsSub (n : List Char) : List Char → Bool
  | [] => n.isEmpty
  | c :: t => startsWithChars n (c :: t) || containsSub n t

/-- Python `str.split()` with no argument: split on whitespace runs, dropping empties.
The second argument accumulates the current word in reverse. -/
def splitWsAux : List Char → List Char → List String
  | [], acc => if acc.isEmpty then [] else [⟨acc.reverse⟩]
  | c :: t, acc =>
    if pyIsSpace c then
      if acc.isEmpty then splitWsAux t [] else ⟨acc.reverse⟩ :: splitWsAux t []
    else splitWsAux t (c :: acc)

/-- Python `str.split()` on a string. -/
def pySplitWs (s : String) : List String := splitWsAux s.data []

/-- Python `paper.split` on a double newline: split on each non-overlapping occurrence of a double
newline, leftmost first.  The accumulator holds the current block in reverse. -/
def splitOn2NL : List Char → List Char → List (List Char)
  | [], acc => [acc.reverse]
  | '\n' :: '\n' :: t, acc => acc.reverse :: splitOn2NL t []
  | c :: t, acc => splitOn2NL t (c :: acc)

/-- Numeric value of a run of ASCII digits (Python `int` on a digit string;
leading zeros behave identically). -/
def natOfDigits (ds : List Char) : Nat :=
  ds.foldl (fun a c => 10 * a + (c.toNat - '0'.toNat)) 0

/-- Scanner for the regex `\[(\d+)\]` used both by `sync_with_text` and by the
patch validator: returns the captured digit groups, left to right, non-overlapping
(Python `re.findall` / `re.finditer` semantics).  The second argument is `some ds`
while inside a candidate match `[ds…` (digits accumulated in reverse). -/
def citeScanAux : List Char → Option (List Char) → List String
  | [], _ => []
  | c :: t, none => if c = '[' then citeScanAux t (some []) else citeScanAux t none
  | c :: t, some ds =>
    if c.isDigit then citeScanAux t (some (c :: ds))
    else if c = ']' ∧ ds ≠ [] then (⟨ds.reverse⟩ : String) :: citeScanAux t none
    else if c = '[' then citeScanAux t (some [])
    else citeScanAux t none

/-- All `[N]` citation markers of a text, as captured digit strings. -/
def citeScan (l : List Char) : List String := citeScanAux l none

/-- Association-list lookup with default (Python `dict.get(k, d)`). -/
def dictGet : List (String × Nat) → String → Nat → Nat
  | [], _, d => d
  | (k', v) :: t, k, d => if k' = k then v else dictGet t k d

/-- Association-list membership (Python `k in dict`). -/
def dictMem : List (String × Nat) → String → Bool
  | [], _ => false
  | (k', _) :: t, k => k' = k || dictMem t k

/-- Association-list update, keeping insertion order like a Python `dict`. -/
def dictSet : List (String × Nat) → String → Nat → List (String × Nat)
  | [], k, v => [(k, v)]
  | (k', v') :: t, k, v => if k' = k then (k, v) :: t else (k', v') :: dictSet t k v

/-- Ceiling of `p / q` on naturals; used to model `math.ceil` applied to the exact
value of the fractional quota products in `CitationManager` (at the quota sizes the
claims exercise, the Python float products round to the same ceiling). -/
def ceilDivNat (p q : Nat) : Nat := (p + q - 1) / q

/-- One literature record of the pool (`literature_parser` output: every field the
citation manager reads).  `year` is kept as the string the parser produces. -/
structure Lit where
  id : String
  authors : String
  year : String
  title : String
  full_citation : String
deriving DecidableEq, Repr

/-- Mutable state of `CitationManager` (`core/citation_manager.py`): the ledger
`citation_tracker` is insertion-ordered `lit_id ↦ citation_number`, plus the quota
bookkeeping set up in `__init__`. -/
structure CMState where
  citation_tracker : List (String × Nat)
  next_citation_num : Nat
  max_total_citations : Nat
  chapter_quotas : List (String × Nat)
  chapter_used : List (String × Nat)
  current_chapter : String
  current_subsection : Nat
  subsection_used : Nat
deriving DecidableEq, Repr

/-- `CitationManager.__init__` (lines 33-66): quota allocation.  `intro` gets
`ceil(total*0.10)`, each chapter `ceil(total*0.30)`; if the five-section sum exceeds
the total, each chapter is trimmed by `(excess + 2) // 3`; the conclusion quota is 0. -/
def citationInit (max_total : Nat) : CMState :=
  let intro_quota := ceilDivNat max_total 10
  let chapter_quota := ceilDivNat (3 * max_total) 10
  let total_allocated := intro_quota + chapter_quota * 3
  let chapter_quota :=
    if total_allocated > max_total then
      chapter_quota - (total_allocated - max_total + 2) / 3
    else chapter_quota
  { citation_tracker := []
    next_citation_num := 1
    max_total_citations := max_total
    chapter_quotas :=
      [("introduction", intro_quota), ("chapter_1", chapter_quota),
       ("chapter_2", chapter_quota), ("chapter_3", chapter_quota), ("conclusion", 0)]
    chapter_used :=
      [("introduction", 0), ("chapter_1", 0), ("chapter_2", 0),
       ("chapter_3", 0), ("conclusion", 0)]
    current_chapter := "introduction"
    current_subsection := 0
    subsection_used := 0 }

/-- `CitationManager.set_current_section` (lines 68-89). -/
def set_current_section (st : CMState) (section_type : String)
    (chapter_idx subsection_idx : Nat) : CMState :=
  let cur :=
    if section_type = "introduction" then "introduction"
    else if section_type = "chapter" then "chapter_" ++ toString (chapter_idx + 1)
    else if section_type = "conclusion" then "conclusion"
    else st.current_chapter
  let st := { st with current_chapter := cur }
  if subsection_idx ≠ st.current_subsection then
    { st with current_subsection := subsection_idx, subsection_used := 0 }
  else st

/-- First author of an `authors` field: `authors.split(',')[0].strip()`. -/
def first_author (authors : String) : String :=
  pyStrip ⟨authors.data.takeWhile (· ≠ ',')⟩

/-- Pass 1 of `CitationManager._diverse_selection` (lines 272-285): greedily keep a
candidate whose first author or year is new, stopping once `target` are selected.
`sel`, `usedA`, `usedY` accumulate the selection and the seen author/year sets. -/
def diversePass1 : List Lit → Nat → List Lit → List String → List String → List Lit
  | [], _, sel, _, _ => sel
  | c :: rest, target, sel, usedA, usedY =>
    let author := first_author c.authors
    let year := c.year
    if author ∉ usedA ∨ year ∉ usedY then
      let sel := sel ++ [c]
      if sel.length ≥ target then sel
      else diversePass1 rest target sel (usedA ++ [author]) (usedY ++ [year])
    else diversePass1 rest target sel usedA usedY

/-- Pass 2 of `CitationManager._diverse_selection` (lines 287-293): top up with the
remaining candidates in similarity order until `target` are selected. -/
def diversePass2 : List Lit → Nat → List Lit → List Lit
  | [], _, sel => sel
  | c :: rest, target, sel =>
    if sel.length ≥ target then sel
    else if c ∈ sel then diversePass2 rest target sel
    else
      let sel := sel ++ [c]
      if sel.length ≥ target then sel else diversePass2 rest target sel

/-- `CitationManager._diverse_selection` (lines 259-295). -/
def diverse_selection (candidates : List Lit) (target_num : Nat) : List Lit :=
  if candidates.length ≤ target_num then candidates
  else diversePass2 candidates target_num (diversePass1 candidates target_num [] [] [])

/-- The assignment loop of `generate_sentence_with_citations` (lines 201-230),
iterating over the selected candidates.  Note the loop-exit guard is the verbatim
`new_added >= target_new and target_new > 0` of the source, which is never taken when
`target_new == 0`.  Returns the inserted citation numbers, the newly used literature
records, and the updated state. -/
def generateCitationLoop :
    List Lit → Nat → Nat → List Nat → List Lit → CMState → List Nat × List Lit × CMState
  | [], _, _, nums, used, st => (nums, used, st)
  | lit :: rest, target_new, new_added, nums, used, st =>
    if new_added ≥ target_new ∧ target_new > 0 then (nums, used, st)
    else if st.citation_tracker.length ≥ st.max_total_citations then (nums, used, st)
    else if dictMem st.citation_tracker lit.id then
      generateCitationLoop rest target_new new_added nums used st
    else
      let n := st.next_citation_num
      let st :=
        { st with
          citation_tracker := st.citation_tracker ++ [(lit.id, n)]
          next_citation_num := n + 1
          chapter_used :=
            dictSet st.chapter_used st.current_chapter
              (dictGet st.chapter_used st.current_chapter 0 + 1)
          subsection_used := st.subsection_used + 1 }
      generateCitationLoop rest target_new (new_added + 1) (nums ++ [n]) (used ++ [lit]) st

/-- `clean_skeleton` preprocessing of the skeleton sentence (lines 242-245):
`rstrip` over the punctuation set 。.,，!！?？ and space followed by the defensive loop stripping trailing `。`. -/
def cleanSkeleton (s : String) : String :=
  let r := (s.data.reverse.dropWhile
    (fun c => c ∈ ['。', '.', ',', '，', '!', '！', '?', '？', ' '])).reverse
  ⟨(r.reverse.dropWhile (· = '。')).reverse⟩

/-- Rendering of the citation markers: the concatenation of the [n] pieces. -/
def citeMarkers (nums : List Nat) : String :=
  nums.foldl (fun acc n => acc ++ "[" ++ toString n ++ "]") ""

/-- Python `str.replace` of a double 。 by a single one: left-to-right non-overlapping. -/
def replaceDoubleStop : List Char → List Char
  | [] => []
  | '。' :: '。' :: t => '。' :: replaceDoubleStop t
  | c :: t => c :: replaceDoubleStop t

/-- Result of one `generate_sentence_with_citations` call.  The source returns the
sentence and the used-literature list; `citation_nums` (the numbers embedded in the
sentence) and the updated manager state are exposed for the specification. -/
structure GenResult where
  sentence : String
  used_lits : List Lit
  citation_nums : List Nat
  state : CMState
deriving DecidableEq, Repr

/-- `CitationManager.generate_sentence_with_citations` (lines 144-257) in the default
`model_router=None` configuration, so selection is `_diverse_selection`.
`raw_candidates` stands for the external retriever output
(`retriever.get_raw_candidates(query, top_k=10)`), and `sample` for
`random.sample` in the reuse branch.  The used-flag mark set on the shared
pool record is reflected by membership in `used_lits`. -/
def generate_sentence_with_citations (st : CMState) (sentence_skeleton : String)
    (raw_candidates : List Lit) (sample : List Nat → Nat → List Nat) : GenResult :=
  let chapter := st.current_chapter
  let chapter_quota := dictGet st.chapter_quotas chapter 0
  let chapter_used := dictGet st.chapter_used chapter 0
  let chapter_remaining := chapter_quota - chapter_used
  let subsection_max := ceilDivNat (34 * chapter_quota) 100
  let subsection_remaining := subsection_max - st.subsection_used
  let total_used := st.citation_tracker.length
  let total_remaining := st.max_total_citations - total_used
  let can_add := chapter_remaining > 0 ∧ subsection_remaining > 0 ∧ total_remaining > 0
  let target_new := if can_add then 1 else 0
  if raw_candidates = [] then
    ⟨sentence_skeleton ++ "。", [], [], st⟩
  else
    let selected := diverse_selection raw_candidates (max target_new 1)
    let (citation_nums, used_lits, st) := generateCitationLoop selected target_new 0 [] [] st
    let citation_nums :=
      if citation_nums = [] ∧ st.citation_tracker ≠ [] then
        sample (st.citation_tracker.map (·.2)) (min 2 (st.citation_tracker.map (·.2)).length)
      else citation_nums
    let clean := cleanSkeleton sentence_skeleton
    let sentence :=
      if citation_nums ≠ [] then clean ++ citeMarkers citation_nums ++ "。"
      else clean ++ "。"
    ⟨⟨replaceDoubleStop sentence.data⟩, used_lits, citation_nums, st⟩

/-- Report of `sync_with_text` (the keys of the Python report dict that carry set
content; `missing` is the empty set exactly when the source leaves the key absent). -/
structure SyncReport where
  text_citations : Finset ℕ
  tracker_citations : Finset ℕ
  added : List ℕ
  removed : Finset ℕ
  matched : Finset ℕ
  missing : Finset ℕ
deriving DecidableEq

/-- `CitationManager.sync_with_text` (lines 347-418): scans the text for `[N]`
markers, diffs against the ledger, reports the differences, leaves the ledger
untouched (the removal loop of step 4 is commented out in the source) and finally
sets `next_citation_num` to one past the largest marker found in the text. -/
def sync_with_text (st : CMState) (paper_text : String) : CMState × SyncReport :=
  let text_citation_list := (citeScan paper_text.data).map (fun s => natOfDigits s.data)
  let text_citation_nums : Finset ℕ := text_citation_list.toFinset
  let tracker_nums : Finset ℕ := (st.citation_tracker.map (·.2)).toFinset
  let missing_in_tracker := text_citation_nums \ tracker_nums
  let unused_in_text := tracker_nums \ text_citation_nums
  let matched := text_citation_nums ∩ tracker_nums
  let st :=
    if text_citation_list ≠ [] then
      { st with next_citation_num := text_citation_list.foldl max 0 + 1 }
    else st
  (st,
   { text_citations := text_citation_nums
     tracker_citations := tracker_nums
     added := []
     removed := unused_in_text
     matched := matched
     missing := missing_in_tracker })

/-- Strips a pre-existing leading `[N] ` numbering from a citation line:
the regex substitution deleting a leading `\[\d+\]\s*`. -/
def cleanLeadingNum (s : String) : String :=
  match s.data with
  | '[' :: rest =>
    let ds := rest.takeWhile Char.isDigit
    match ds, rest.dropWhile Char.isDigit with
    | _ :: _, ']' :: tail => ⟨tail.dropWhile pyIsSpace⟩
    | _, _ => s
  | _ => s

/-- Pool lookup `next` over the pool entries whose id equals `lit_id`; `none` models the
`StopIteration` failure when the id is absent. -/
def litFind : List Lit → String → Option Lit
  | [], _ => none
  | l :: rest, lit_id => if l.id = lit_id then some l else litFind rest lit_id

/-- Stable insertion of a ledger item into a list sorted by citation number. -/
def insertByNum (x : String × Nat) : List (String × Nat) → List (String × Nat)
  | [] => [x]
  | y :: ys => if x.2 < y.2 then x :: y :: ys else y :: insertByNum x ys

/-- Stable sort of the ledger items by citation number, modelling
`sorted(self.citation_tracker.items(), key=lambda x: x[1])` (Python `sorted` is
stable, and stable sorts agree on their output). -/
def sortByNum : List (String × Nat) → List (String × Nat)
  | [] => []
  | x :: xs => insertByNum x (sortByNum xs)

/-- The entry-building loop of `generate_reference_list` (lines 313-325); `none`
models the `StopIteration` raised when a ledger id is missing from the pool. -/
def buildRefEntries (pool : List Lit) : List (String × Nat) → Option (List String)
  | [] => some []
  | (lit_id, citation_num) :: rest =>
    match litFind pool lit_id with
    | none => none
    | some lit =>
      (buildRefEntries pool rest).map
        (fun es => ("[" ++ toString citation_num ++ "] " ++ cleanLeadingNum lit.full_citation) :: es)

/-- `CitationManager.generate_reference_list` (lines 297-329). -/
def generate_reference_list (st : CMState) (pool : List Lit) : Option String :=
  if st.citation_tracker = [] then some ""
  else
    let sorted_items := sortByNum st.citation_tracker
    (buildRefEntries pool sorted_items).map (String.intercalate "\n\n")

/-- One entry of the paragraph index built by `_extract_paper_paragraphs`. -/
structure Para where
  idx : Nat
  location : String
  preview : String
  full_text : String
  is_heading : Bool
deriving DecidableEq, Repr

/-- The Chinese numerals of the heading character class `[一二三四五六七八九十]`. -/
def chineseNum (c : Char) : Bool :=
  c ∈ ['一', '二', '三', '四', '五', '六', '七', '八', '九', '十']

/-- Capture of a trailing `(.+)` group: the rest of the current line, which must be
nonempty (`.` does not match a newline). -/
def capLine (l : List Char) : Option (List Char) :=
  let cap := l.takeWhile (· ≠ '\n')
  if cap = [] then none else some cap

/-- Matcher for `^#…#\s+(.+)` with exactly the `n` hashes of the given prefix list
followed by at least one whitespace character. -/
def matchHash (hashes : List Char) (l : List Char) : Option (List Char) :=
  if startsWithChars hashes l then
    match l.drop hashes.length with
    | c :: t => if pyIsSpace c then capLine (t.dropWhile pyIsSpace) else none
    | [] => none
  else none

/-- Matcher for `^[一二三四五六七八九十]+[、．.]\s*(.+)`. -/
def matchCnDot (l : List Char) : Option (List Char) :=
  match l.takeWhile chineseNum, l.dropWhile chineseNum with
  | _ :: _, p :: rest =>
    if p ∈ ['、', '．', '.'] then capLine (rest.dropWhile pyIsSpace) else none
  | _, _ => none

/-- Matcher for `^（[一二三四五六七八九十]+）\s*(.+)`. -/
def matchCnParen (l : List Char) : Option (List Char) :=
  match l with
  | '（' :: rest =>
    (match rest.takeWhile chineseNum, rest.dropWhile chineseNum with
     | _ :: _, '）' :: r2 => capLine (r2.dropWhile pyIsSpace)
     | _, _ => none)
  | _ => none

/-- Matcher for `^\d+[\.\、]\s*(.+)`. -/
def matchNumDot (l : List Char) : Option (List Char) :=
  match l.takeWhile Char.isDigit, l.dropWhile Char.isDigit with
  | _ :: _, p :: rest =>
    if p ∈ ['.', '、'] then capLine (rest.dropWhile pyIsSpace) else none
  | _, _ => none

/-- The ordered `heading_patterns` list of `_extract_paper_paragraphs` (lines
608-615): the first matching pattern wins and yields the `group(1)` capture.  The
matchers resolve the greedy `\s*`/`\s+` runs deterministically, which agrees with the
regex on the stripped blocks they are applied to. -/
def matchHeading (l : List Char) : Option (List Char) :=
  (matchHash ['#', '#'] l).orElse fun _ =>
  (matchHash ['#', '#', '#'] l).orElse fun _ =>
  (matchHash ['#'] l).orElse fun _ =>
  (matchCnDot l).orElse fun _ =>
  (matchCnParen l).orElse fun _ =>
  matchNumDot l

/-- The block loop of `_extract_paper_paragraphs` (lines 617-655): headings are
appended with `is_heading=True` and update the running section title; reference-list
entries and blocks shorter than 20 characters are skipped; everything else becomes a
body paragraph.  `acc` carries the paragraphs appended so far. -/
def extractParasLoop : List (List Char) → String → List Para → List Para
  | [], _, acc => acc
  | p :: rest, current_section, acc =>
    let para := pyStripL p
    if para = [] then extractParasLoop rest current_section acc
    else
      match matchHeading para with
      | some cap =>
        let sec : String := ⟨(pyStripL cap).take 20⟩
        extractParasLoop rest sec
          (acc ++ [⟨acc.length, sec, ⟨para.take 100⟩, ⟨para⟩, true⟩])
      | none =>
        if startsWithChars ['['] para ∧ (para.take 20).contains ']' then
          extractParasLoop rest current_section acc
        else if para.length < 20 then
          extractParasLoop rest current_section acc
        else
          extractParasLoop rest current_section
            (acc ++ [⟨acc.length, current_section, ⟨para.take 100⟩, ⟨para⟩, false⟩])

/-- `ExpertReviewSystem._extract_paper_paragraphs` (lines 602-657). -/
def extract_paper_paragraphs (paper : String) : List Para :=
  extractParasLoop (splitOn2NL paper.data []) "摘要" []

/-- One revision task as produced by the task decomposer: `problem`, `requirement`
and `keywords` strings, plus the optional `paragraph_index` some fallback parsers
attach. -/
structure RTask where
  task_id : Nat
  problem : String
  requirement : String
  keywords : String
  paragraph_index : Option Nat
deriving DecidableEq, Repr

/-- Number of search keys occurring in a text: the score loop body
the loop incrementing `score` for each search key found in the full text. -/
def keywordScore (keys : List String) (text : String) : Nat :=
  (keys.filter (fun k => containsSub k.data text.data)).length

/-- The keyword-overlap scoring loop of `_execute_tasks_sequentially` (lines
773-785): paragraphs whose stripped text starts with `#` are skipped, and a paragraph
wins if its score strictly exceeds the best so far and is at least 1. -/
def keywordMatchLoop : List Para → List String → Nat → Option Para → Option Para
  | [], _, _, best => best
  | p :: rest, keys, best_score, best =>
    if startsWithChars ['#'] (pyStripL p.full_text.data) then
      keywordMatchLoop rest keys best_score best
    else
      let score := keywordScore keys p.full_text
      if score > best_score ∧ score ≥ 1 then keywordMatchLoop rest keys score (some p)
      else keywordMatchLoop rest keys best_score best

/-- The search keys of a task: `str(keywords).split()` extended (via `list.extend`,
i.e. character by character) with the first 10 characters of the problem text when it
is nonempty (lines 769-771). -/
def searchKeys (task : RTask) : List String :=
  pySplitWs task.keywords ++
    (if task.problem ≠ "" then (task.problem.data.take 10).map (fun c => (⟨[c]⟩ : String))
     else [])

/-- Locator resolution of `_execute_tasks_sequentially` (lines 756-785): a stored
`paragraph_index` in range wins, otherwise keyword-overlap scoring over the paragraph
list (only attempted when the task has a nonempty `keywords` hint). -/
def resolveLocator (paragraphs : List Para) (task : RTask) : Option Para :=
  let fromIdx :=
    match task.paragraph_index with
    | some idx => if idx < paragraphs.length then paragraphs.get? idx else none
    | none => none
  match fromIdx with
  | some p => some p
  | none =>
    if task.keywords ≠ "" then keywordMatchLoop paragraphs (searchKeys task) 0 none
    else none

/-- `ExpertReviewSystem._patch_modify_paragraph` (lines 811-871), with the
collaborator call `router.generate(prompt, …)` abstracted into the `raw` argument
(its `.strip()` is applied here as in line 845).  The two length-ratio rejections
`len(result)/len(original) < 0.5` and `> 2.0` are written multiplied out, which is
exact because `original_text` is nonempty on that branch. -/
def patch_modify_paragraph (original_text : String) (raw : String) : String :=
  if original_text.data.length < 20 ∨ startsWithChars ['#'] original_text.data then
    original_text
  else
    let result := pyStrip raw
    if result = "" ∨ result.data.length < 10 then original_text
    else
      let orig_refs : Finset String := (citeScan original_text.data).toFinset
      let new_refs : Finset String := (citeScan result.data).toFinset
      if orig_refs ≠ ∅ ∧ orig_refs \ new_refs ≠ ∅ then original_text
      else if 2 * result.data.length < original_text.data.length ∨
          original_text.data.length * 2 < result.data.length then original_text
      else result

/-- Holds exactly when a `_patch_modify_paragraph` call commits the collaborator
output (reaches the final `return result` of line 867) rather than discarding it:
the negation of each early-return condition of `patch_modify_paragraph`, in order. -/
def patchCommits (original_text : String) (raw : String) : Prop :=
  ¬ (original_text.data.length < 20 ∨ startsWithChars ['#'] original_text.data) ∧
  ¬ (pyStrip raw = "" ∨ (pyStrip raw).data.length < 10) ∧
  ¬ ((citeScan original_text.data).toFinset ≠ ∅ ∧
     (citeScan original_text.data).toFinset \ (citeScan (pyStrip raw).data).toFinset ≠ ∅) ∧
  ¬ (2 * (pyStrip raw).data.length < original_text.data.length ∨
     original_text.data.length * 2 < (pyStrip raw).data.length)

instance (original_text raw : String) : Decidable (patchCommits original_text raw) := by
  unfold patchCommits
  infer_instance

/-- The per-task body of `_execute_tasks_sequentially` (lines 749-803): resolve the
locator, skip unresolved tasks and already-modified paragraphs, run the patch, and
commit the result into the paragraph list when it is nonempty and changed.
`genOracle` abstracts the collaborator output for a given paragraph and task. -/
def execTasksLoop (genOracle : String → RTask → String) :
    List RTask → List Para → List Nat → List Para
  | [], paragraphs, _ => paragraphs
  | task :: rest, paragraphs, modified_indices =>
    match resolveLocator paragraphs task with
    | none => execTasksLoop genOracle rest paragraphs modified_indices
    | some target_para =>
      if target_para.idx ∈ modified_indices then
        execTasksLoop genOracle rest paragraphs modified_indices
      else
        let new_content :=
          patch_modify_paragraph target_para.full_text (genOracle target_para.full_text task)
        if new_content ≠ "" ∧ new_content ≠ target_para.full_text then
          let paragraphs :=
            match paragraphs.get? target_para.idx with
            | some q => paragraphs.set target_para.idx { q with full_text := new_content }
            | none => paragraphs
          execTasksLoop genOracle rest paragraphs (target_para.idx :: modified_indices)
        else execTasksLoop genOracle rest paragraphs modified_indices

/-- `ExpertReviewSystem._execute_tasks_sequentially` (lines 718-809). -/
def execute_tasks_sequentially (genOracle : String → RTask → String)
    (paper : String) (task_list : List RTask) : String :=
  if task_list = [] then paper
  else
    let paragraphs := extract_paper_paragraphs paper
    if paragraphs = [] then paper
    else
      String.intercalate "\n\n"
        ((execTasksLoop genOracle task_list paragraphs []).map (·.full_text))

/-- Return value of `review_and_optimize_iteratively`: the keys `final_paper`,
`rounds`, `final_score` and `all_reviews` of the result dict, a review being the
`(optimized_paper, 综合评分)` pair of one round. -/
structure ReviewOutcome where
  final_paper : String
  rounds : Nat
  final_score : ℚ
  all_reviews : List (String × ℚ)
deriving DecidableEq, Repr

/-- The round loop of `review_and_optimize_iteratively` (lines 49-91):
`single_round` abstracts `_single_round_review_and_optimize` as a function of the
round number and the current paper.  A round is accepted exactly when its score
strictly exceeds `best_score`; otherwise the working copy rolls back to `best`.
The loop stops early once `best_score` reaches `target_score`. -/
def reviewLoop (single_round : Nat → String → String × ℚ) (target_score : ℚ) :
    Nat → Nat → String → String → ℚ → List (String × ℚ) → ReviewOutcome
  | 0, round_num, _, best, best_score, reviews => ⟨best, round_num, best_score, reviews⟩
  | remaining + 1, round_num, current, best, best_score, reviews =>
    let r := single_round (round_num + 1) current
    let reviews := reviews ++ [r]
    let (current, best, best_score) :=
      if r.2 > best_score then (r.1, r.1, r.2) else (best, best, best_score)
    if best_score ≥ target_score then ⟨best, round_num + 1, best_score, reviews⟩
    else reviewLoop single_round target_score remaining (round_num + 1) current best best_score reviews

/-- `ExpertReviewSystem.review_and_optimize_iteratively` (lines 32-101): the best
version is seeded with the caller-supplied draft at score 0. -/
def review_and_optimize_iteratively (single_round : Nat → String → String × ℚ)
    (target_score : ℚ) (max_rounds : Nat) (paper_content : String) : ReviewOutcome :=
  reviewLoop single_round target_score max_rounds 0 paper_content paper_content 0 []

/-- Exact value of a `float(…)` conversion of a captured decimal `ds[.fs]`. -/
def ratOfDigits (ds fs : List Char) : ℚ :=
  if fs.isEmpty then (natOfDigits ds : ℚ)
  else (natOfDigits ds : ℚ) + (natOfDigits fs : ℚ) / ((10 : ℚ) ^ fs.length)

/-- The regex number token `(\d+(?:\.\d+)?)` anchored at the current position:
captured value and the remaining input. -/
def numToken (l : List Char) : Option (ℚ × List Char) :=
  match l.takeWhile Char.isDigit, l.dropWhile Char.isDigit with
  | [], _ => none
  | ds, '.' :: r2 =>
    (match r2.takeWhile Char.isDigit, r2.dropWhile Char.isDigit with
     | [], _ => some (ratOfDigits ds [], '.' :: r2)
     | fs, r3 => some (ratOfDigits ds fs, r3))
  | ds, r => some (ratOfDigits ds [], r)

/-- The character class `[:：]`. -/
def isColon (c : Char) : Bool := c = ':' || c = '：'

/-- Greedy `\*?\*?`: skip up to two adjacent asterisks. -/
def starSkip : List Char → List Char
  | '*' :: '*' :: t => t
  | '*' :: t => t
  | t => t

/-- Leftmost-match search driver: try the anchored matcher at every position, left to
right (`re.search` semantics for the anchored matchers below). -/
def searchFirst {α : Type} (f : List Char → Option α) : List Char → Option α
  | [] => f []
  | c :: t =>
    match f (c :: t) with
    | some r => some r
    | none => searchFirst f t

/-- Anchored matcher for score pattern 1, `\*?\*?综合评分[:：]\s*\*?\*?\s*(\d+(?:\.\d+)?)/100`
(line 1028).  The optional asterisks before the literal never change whether a match
exists nor the captured group, so the anchor starts at the literal. -/
def tryScore1 (l : List Char) : Option ℚ :=
  if startsWithChars ['综', '合', '评', '分'] l then
    match l.drop 4 with
    | c :: t =>
      if isColon c then
        match numToken ((starSkip (t.dropWhile pyIsSpace)).dropWhile pyIsSpace) with
        | some (q, rest) =>
          if startsWithChars ['/', '1', '0', '0'] rest then some q else none
        | none => none
      else none
    | [] => none
  else none

/-- Anchored matcher for score pattern 2, `综合评分[:：]\s*(\d+(?:\.\d+)?)(?:分|/100)?`
(line 1035); the optional suffix does not affect the capture. -/
def tryScore2 (l : List Char) : Option ℚ :=
  if startsWithChars ['综', '合', '评', '分'] l then
    match l.drop 4 with
    | c :: t => if isColon c then (numToken (t.dropWhile pyIsSpace)).map (·.1) else none
    | [] => none
  else none

/-- Lazy `.*?[=≈]\s*(\d+(?:\.\d+)?)` scan for score pattern 3: find the earliest
`=`/`≈` on the current line that is followed by optional whitespace and a number. -/
def scanEqNum : List Char → Option ℚ
  | [] => none
  | c :: t =>
    if c = '\n' then none
    else if c = '=' || c = '≈' then
      match numToken (t.dropWhile pyIsSpace) with
      | some (q, _) => some q
      | none => scanEqNum t
    else scanEqNum t

/-- Anchored matcher for score pattern 3, `综合评分[:：].*?[=≈]\s*(\d+(?:\.\d+)?)`
(line 1043). -/
def tryScore3 (l : List Char) : Option ℚ :=
  if startsWithChars ['综', '合', '评', '分'] l then
    match l.drop 4 with
    | c :: t => if isColon c then scanEqNum t else none
    | [] => none
  else none

/-- Anchored matcher for score pattern 4, `总分[:：]\s*(\d+(?:\.\d+)?)/100` (line 1050). -/
def tryScore4 (l : List Char) : Option ℚ :=
  if startsWithChars ['总', '分'] l then
    match l.drop 2 with
    | c :: t =>
      if isColon c then
        match numToken (t.dropWhile pyIsSpace) with
        | some (q, rest) =>
          if startsWithChars ['/', '1', '0', '0'] rest then some q else none
        | none => none
      else none
    | [] => none
  else none

/-- Backtracking tail of score pattern 5: after a chosen digit run `ds`, try the
greedy optional fraction `(?:\.\d+)?` and then the literal `lit`, fractional form
first; returns the captured value and the input after the whole match. -/
def tryFracThenLit (lit : List Char) (ds : List Char) (rest : List Char) :
    Option (ℚ × List Char) :=
  let withFrac : Option (ℚ × List Char) :=
    match rest with
    | '.' :: r2 =>
      (match r2.takeWhile Char.isDigit, r2.dropWhile Char.isDigit with
       | [], _ => none
       | fs, r3 =>
         if startsWithChars lit r3 then some (ratOfDigits ds fs, r3.drop lit.length)
         else none)
    | _ => none
  match withFrac with
  | some r => some r
  | none =>
    if startsWithChars lit rest then some (ratOfDigits ds [], rest.drop lit.length)
    else none

/-- One backtracking attempt of `\d{1,3}` at width `k` for score pattern 5. -/
def tryP5At (l : List Char) (k : Nat) : Option (ℚ × List Char) :=
  let ds := l.takeWhile Char.isDigit
  if 1 ≤ k ∧ k ≤ ds.length then tryFracThenLit ['/', '1', '0', '0'] (ds.take k) (l.drop k)
  else none

/-- Anchored matcher for score pattern 5, `(\d{1,3}(?:\.\d+)?)/100` (line 1057):
the greedy bounded repetition backtracks from three digits down to one. -/
def tryP5 (l : List Char) : Option (ℚ × List Char) :=
  match tryP5At l 3 with
  | some r => some r
  | none =>
    match tryP5At l 2 with
    | some r => some r
    | none => tryP5At l 1

/-- Fuel-indexed `re.findall` driver: collect non-overlapping matches left to right,
resuming after each match.  Every step consumes at least one character, so fuel equal
to the input length is always sufficient. -/
def findAllAux (f : List Char → Option (ℚ × List Char)) : Nat → List Char → List ℚ
  | 0, _ => []
  | _ + 1, [] => []
  | fuel + 1, c :: t =>
    match f (c :: t) with
    | some (q, rest) => q :: findAllAux f fuel rest
    | none => findAllAux f fuel t

/-- `re.findall` over a whole input. -/
def findAllQ (f : List Char → Option (ℚ × List Char)) (l : List Char) : List ℚ :=
  findAllAux f l.length l

/-- Anchored matcher for score pattern 6,
`(?:创新点|逻辑性|准确性|规范性)得分[:：]\s*(\d+(?:\.\d+)?)/25` (line 1066). -/
def tryDim (l : List Char) : Option (ℚ × List Char) :=
  let head :=
    if startsWithChars ['创', '新', '点'] l then some (l.drop 3)
    else if startsWithChars ['逻', '辑', '性'] l then some (l.drop 3)
    else if startsWithChars ['准', '确', '性'] l then some (l.drop 3)
    else if startsWithChars ['规', '范', '性'] l then some (l.drop 3)
    else none
  match head with
  | none => none
  | some r =>
    if startsWithChars ['得', '分'] r then
      match r.drop 2 with
      | c :: t =>
        if isColon c then
          match numToken (t.dropWhile pyIsSpace) with
          | some (q, rest) =>
            if startsWithChars ['/', '2', '5'] rest then some (q, rest.drop 3) else none
          | none => none
        else none
      | [] => none
    else none

/-- Anchored matcher for score pattern 7, `小计[:：]\s*(\d+(?:\.\d+)?)/25` (line 1073). -/
def trySubtotal (l : List Char) : Option (ℚ × List Char) :=
  if startsWithChars ['小', '计'] l then
    match l.drop 2 with
    | c :: t =>
      if isColon c then
        match numToken (t.dropWhile pyIsSpace) with
        | some (q, rest) =>
          if startsWithChars ['/', '2', '5'] rest then some (q, rest.drop 3) else none
        | none => none
      else none
    | [] => none
  else none

/-- `ExpertReviewSystem._extract_comprehensive_score` (lines 1023-1080): the ordered
fallback chain of recognizers; the first success wins, pattern 2 additionally
requires its value to be at most 100, pattern 5 keeps the last of all matches,
pattern 6 fires only on exactly four matches, pattern 7 sums the first four of at
least four matches, and 60 is the final default. -/
def extract_comprehensive_score (integrated_feedback : String) : ℚ :=
  let l := integrated_feedback.data
  match searchFirst tryScore1 l with
  | some score => score
  | none =>
    let pat2 : Option ℚ :=
      match searchFirst tryScore2 l with
      | some score => if score ≤ 100 then some score else none
      | none => none
    match pat2 with
    | some score => score
    | none =>
      match searchFirst tryScore3 l with
      | some score => score
      | none =>
        match searchFirst tryScore4 l with
        | some score => score
        | none =>
          match (findAllQ tryP5 l).getLast? with
          | some score => score
          | none =>
            let dimension_scores := findAllQ tryDim l
            if dimension_scores.length = 4 then dimension_scores.foldl (· + ·) 0
            else
              let expert_scores := findAllQ trySubtotal l
              if expert_scores.length ≥ 4 then (expert_scores.take 4).foldl (· + ·) 0
              else 60

/-- The integrated-score post-processing of `_single_round_review_and_optimize`
(lines 142-152): when the extracted comprehensive score equals the 60.0 default, the
sum of the four per-axis expert scores replaces it, provided that sum is positive. -/
def single_round_comprehensive_score (integrated_result : String)
    (expert1_score expert2_score expert3_score expert4_score : ℚ) : ℚ :=
  let comprehensive_score := extract_comprehensive_score integrated_result
  if comprehensive_score = 60 then
    let direct_sum := expert1_score + expert2_score + expert3_score + expert4_score
    if direct_sum > 0 then direct_sum else comprehensive_score
  else comprehensive_score

/-- Fixture literature record A. -/
def litA : Lit := ⟨"litA", "Zhang, L", "2019", "tA", "[1] A full citation"⟩

/-- Fixture literature record B. -/
def litB : Lit := ⟨"litB", "Wang, M", "2020", "tB", "B full citation"⟩

/-- Fixture literature record C. -/
def litC : Lit := ⟨"litC", "Li, K", "2021", "tC", "C full citation"⟩

/-- Fixture literature record D. -/
def litD : Lit := ⟨"litD", "Zhao, P", "2018", "tD", "D full citation"⟩

/-- Deterministic instantiation of `random.sample`: take the first `k` elements. -/
def sampleTake : List Nat → Nat → List Nat := fun l k => l.take k

/-- Manager state positioned in the conclusion (quota 0) with an otherwise fresh
ledger, built with the default total quota of 25. -/
def conclusionState : CMState := set_current_section (citationInit 25) "conclusion" 0 0

/-- The C4 scenario: two assignments in the introduction, a sync against a text that
only uses marker `[1]`, a move to chapter 1, then a third assignment. -/
def c4_afterTwo : CMState :=
  (generate_sentence_with_citations
    (generate_sentence_with_citations (citationInit 25) "句子一" [litA] sampleTake).state
    "句子二" [litB] sampleTake).state

/-- The C4 scenario state after the sync and the section switch. -/
def c4_afterSync : CMState :=
  set_current_section (sync_with_text c4_afterTwo "正文[1]。").1 "chapter" 0 1

/-- The C4 scenario final state after the third assignment. -/
def c4_final : CMState :=
  (generate_sentence_with_citations c4_afterSync "句子三" [litC] sampleTake).state

/-- C1: the claim fails on the code.  With the current section set to the conclusion
(whose quota is 0, so the section gate fails) and an empty ledger, a call to
`generate_sentence_with_citations` still creates a new ledger entry `litD ↦ 1`: the
loop-exit guard `new_added >= target_new and target_new > 0` is never taken when
`target_new == 0`, so the triple gating documented in the source comments (and logged
as `添加=0`) is bypassed whenever the global quota is not yet exhausted. -/
theorem c1_conclusion_call_adds_ledger_entry :
    conclusionState.current_chapter = "conclusion" ∧
    dictGet conclusionState.chapter_quotas "conclusion" 0 = 0 ∧
    conclusionState.citation_tracker = [] ∧
    (generate_sentence_with_citations conclusionState "本文的研究" [litD]
        sampleTake).state.citation_tracker = [("litD", 1)] ∧
    (generate_sentence_with_citations conclusionState "本文的研究" [litD]
        sampleTake).sentence = "本文的研究[1]。" := by decide

/-- C4: the claim fails on the code.  After `litA ↦ 1` and `litB ↦ 2` are issued,
`sync_with_text` against a text that only uses `[1]` lowers `next_citation_num` back
to 2 while the unused ledger entry `litB ↦ 2` is retained; the next assignment then
issues number 2 a second time, to the different record `litC`. -/
theorem c4_sync_reissues_citation_number :
    c4_afterTwo.citation_tracker = [("litA", 1), ("litB", 2)] ∧
    c4_afterTwo.next_citation_num = 3 ∧
    c4_afterSync.next_citation_num = 2 ∧
    c4_final.citation_tracker = [("litA", 1), ("litB", 2), ("litC", 2)] ∧
    ("litB", 2) ∈ c4_final.citation_tracker ∧ ("litC", 2) ∈ c4_final.citation_tracker ∧
    ("litB" : String) ≠ "litC" := by decide

/-- C5 counterexample: with a total quota of 25 the constructor computes a chapter
quota of 7, not the 8 the claim states (ceil gives intro 3 and chapters 8, but the
excess 27 − 25 = 2 is then trimmed by `(2 + 2) // 3 = 1` from each chapter). -/
theorem c5_chapter_quota_is_seven_not_eight :
    dictGet (citationInit 25).chapter_quotas "chapter_1" 0 = 7 ∧ (7 : Nat) ≠ 8 := by decide

/-- C5 amended: with a total quota of 25 the per-section quotas are
introduction 3, each chapter 7, conclusion 0. -/
theorem c5_quotas_for_25 :
    (citationInit 25).chapter_quotas =
      [("introduction", 3), ("chapter_1", 7), ("chapter_2", 7),
       ("chapter_3", 7), ("conclusion", 0)] ∧
    (citationInit 25).max_total_citations = 25 := by decide

/-- C6: `sync_with_text` only reports differences and never repairs them — the
`lit_id ↦ citation_number` ledger is identical before and after the call, markers
missing from the ledger are reported in `missing` (and gain no entry), ledger entries
unused in the text are reported in `removed` but remain in the ledger, and nothing is
ever added. -/
theorem c6_sync_reports_never_repairs (st : CMState) (text : String) :
    (sync_with_text st text).1.citation_tracker = st.citation_tracker ∧
    (sync_with_text st text).2.missing =
      ((citeScan text.data).map (fun s => natOfDigits s.data)).toFinset \
        (st.citation_tracker.map (·.2)).toFinset ∧
    (sync_with_text st text).2.removed =
      (st.citation_tracker.map (·.2)).toFinset \
        ((citeScan text.data).map (fun s => natOfDigits s.data)).toFinset ∧
    (sync_with_text st text).2.matched =
      ((citeScan text.data).map (fun s => natOfDigits s.data)).toFinset ∩
        (st.citation_tracker.map (·.2)).toFinset ∧
    (sync_with_text st text).2.added = [] := by
  refine ⟨?_, rfl, rfl, rfl, rfl⟩
  unfold sync_with_text
  dsimp only
  split <;> rfl

/-- Characterization of `patch_modify_paragraph` by its commit condition: the call
returns the stripped collaborator output when every validation check passes, and the
original paragraph otherwise. -/
theorem patch_modify_paragraph_eq (original raw : String) :
    patch_modify_paragraph original raw =
      if patchCommits original raw then pyStrip raw else original := by
  unfold patch_modify_paragraph patchCommits
  dsimp only
  split_ifs <;> first | rfl | tauto

/-- Fixture paragraph containing the citation markers `[3]` and `[7]`. -/
def paraMarked : String :=
  "数字经济的发展重塑了企业的组织边界与治理结构[3][7]，并对传统科层制提出了挑战。"

/-- A patched output for `paraMarked` that keeps `[3]` but loses `[7]`. -/
def patchLosingSeven : String :=
  "数字经济的发展深刻重塑了企业的组织边界与治理结构[3]，并对传统的科层制管理模式提出了挑战。"

/-- A patched output for `paraMarked` that keeps both markers and passes every check. -/
def patchKeepingBoth : String :=
  "数字经济的快速发展深刻重塑了企业的组织边界与治理结构[3][7]，并对传统科层制管理模式提出了挑战。"

/-- C3: a paragraph patch is committed only if the stripped collaborator output is
non-empty and at least the 10-character minimum, its citation-marker set contains
every marker of the original, and its length is between 0.5× and 2.0× of the
original; whenever any check fails the original paragraph is returned unchanged.
In particular the fixture with markers `[3][7]` patched to an output lacking `[7]`
is rejected and the original returned. -/
theorem c3_patch_validation :
    (∀ original raw, patch_modify_paragraph original raw ≠ original →
      patch_modify_paragraph original raw = pyStrip raw ∧
      pyStrip raw ≠ "" ∧ 10 ≤ (pyStrip raw).data.length ∧
      (citeScan original.data).toFinset ⊆ (citeScan (pyStrip raw).data).toFinset ∧
      (1 : ℚ) / 2 ≤ ((pyStrip raw).data.length : ℚ) / (original.data.length : ℚ) ∧
      ((pyStrip raw).data.length : ℚ) / (original.data.length : ℚ) ≤ 2) ∧
    "3" ∈ citeScan paraMarked.data ∧ "7" ∈ citeScan paraMarked.data ∧
    "7" ∉ citeScan (pyStrip patchLosingSeven).data ∧
    ¬ patchCommits paraMarked patchLosingSeven ∧
    patch_modify_paragraph paraMarked patchLosingSeven = paraMarked := by
  refine ⟨?_, by decide, by decide, by decide, by decide, by decide⟩
  intro original raw h
  rw [patch_modify_paragraph_eq] at h ⊢
  by_cases hc : patchCommits original raw
  · rw [if_pos hc]
    obtain ⟨h1, h2, h3, h4⟩ := hc
    push_neg at h1 h2 h3 h4
    have holen : 0 < original.data.length := by omega
    have hoq : (0 : ℚ) < (original.data.length : ℚ) := by exact_mod_cast holen
    refine ⟨rfl, h2.1, by omega, ?_, ?_, ?_⟩
    · by_cases he : (citeScan original.data).toFinset = ∅
      · rw [he]; exact Finset.empty_subset _
      · exact Finset.sdiff_eq_empty_iff_subset.mp (h3 he)
    · rw [le_div_iff₀ hoq]
      have := h4.1
      have hcast : (original.data.length : ℚ) ≤ 2 * ((pyStrip raw).data.length : ℚ) := by
        exact_mod_cast this
      linarith
    · rw [div_le_iff₀ hoq]
      have := h4.2
      have hcast : ((pyStrip raw).data.length : ℚ) ≤ (original.data.length : ℚ) * 2 := by
        exact_mod_cast this
      linarith
  · rw [if_neg hc] at h
    exact absurd rfl h

/-- Witness for C3: a committing patch call at a concrete input satisfies every
validation condition. -/
theorem c3_patch_validation_witness :
    patch_modify_paragraph paraMarked patchKeepingBoth ≠ paraMarked ∧
    (patch_modify_paragraph paraMarked patchKeepingBoth = pyStrip patchKeepingBoth ∧
     pyStrip patchKeepingBoth ≠ "" ∧ 10 ≤ (pyStrip patchKeepingBoth).data.length ∧
     (citeScan paraMarked.data).toFinset ⊆ (citeScan (pyStrip patchKeepingBoth).data).toFinset ∧
     (1 : ℚ) / 2 ≤ ((pyStrip patchKeepingBoth).data.length : ℚ) / (paraMarked.data.length : ℚ) ∧
     ((pyStrip patchKeepingBoth).data.length : ℚ) / (paraMarked.data.length : ℚ) ≤ 2) :=
  ⟨by decide, c3_patch_validation.1 paraMarked patchKeepingBoth (by decide)⟩

/-- C9: validating an unmodified body paragraph (stripped, not `#`-prefixed, at least
the 20-character minimum) against itself passes every check and returns the paragraph
unchanged. -/
theorem c9_patch_idempotent (p : String) (h1 : pyStrip p = p)
    (h2 : startsWithChars ['#'] p.data = false) (h3 : 20 ≤ p.data.length) :
    patchCommits p p ∧ patch_modify_paragraph p p = p := by
  have hcommit : patchCommits p p := by
    refine ⟨?_, ?_, ?_, ?_⟩
    · push_neg
      exact ⟨by omega, by simp [h2]⟩
    · rw [h1]
      push_neg
      refine ⟨?_, by omega⟩
      intro he
      rw [he] at h3
      exact absurd h3 (by decide)
    · rw [h1]
      rintro ⟨hne, hdiff⟩
      exact hdiff (Finset.sdiff_self _)
    · rw [h1]
      omega
  refine ⟨hcommit, ?_⟩
  rw [patch_modify_paragraph_eq, if_pos hcommit]
  exact h1

/-- Witness for C9 at a concrete stripped body paragraph. -/
theorem c9_patch_idempotent_witness :
    patchCommits paraMarked paraMarked ∧
    patch_modify_paragraph paraMarked paraMarked = paraMarked :=
  c9_patch_idempotent paraMarked (by decide) (by decide) (by decide)

/-- Fixture: a Chinese-numeral heading block (21 characters, so above the patch
minimum length and not `#`-prefixed). -/
def headingC7 : String := "一、数字经济时代企业组织变革的理论逻辑分析"

/-- Fixture: the body paragraph following the heading. -/
def bodyC7 : String :=
  "传统科层制企业在数字技术冲击下面临组织边界重构、治理模式转型等多重挑战，亟需系统的理论回应。"

/-- Fixture document: the heading and one body paragraph. -/
def paperC7 : String := headingC7 ++ "\n\n" ++ bodyC7

/-- Fixture collaborator output: a rewritten heading that passes every patch check. -/
def newHeadingC7 : String := "一、数字经济时代企业组织变革的理论逻辑与现实基础分析"

/-- Fixture task whose keyword hint `理论逻辑` overlaps only the heading. -/
def taskC7 : RTask := ⟨1, "", "深化该部分的论证", "理论逻辑", none⟩

/-- Fixture collaborator always returning the rewritten heading. -/
def oracleC7 : String → RTask → String := fun _ _ => newHeadingC7

/-- C7: the claim fails on the code.  The parser classifies the Chinese-numeral block
as a heading (`is_heading = true`), yet the keyword-overlap locator — which only
skips `#`-prefixed lines — selects that heading node as the mutation target, and the
patch executor commits a rewrite of it, changing the heading in the reassembled
document.  The promise in the source that headings 会被跳过修改 (will be skipped for
modification) holds only for the markdown heading syntax. -/
theorem c7_heading_selected_and_mutated :
    (extract_paper_paragraphs paperC7).map (fun p => (p.idx, p.is_heading)) =
      [(0, true), (1, false)] ∧
    ((extract_paper_paragraphs paperC7).get? 0).map Para.full_text = some headingC7 ∧
    (resolveLocator (extract_paper_paragraphs paperC7) taskC7).map
      (fun p => (p.idx, p.is_heading)) = some (0, true) ∧
    execute_tasks_sequentially oracleC7 paperC7 [taskC7] = newHeadingC7 ++ "\n\n" ++ bodyC7 ∧
    newHeadingC7 ++ "\n\n" ++ bodyC7 ≠ paperC7 := by decide

/-- Inserting into a ledger list permutes consing. -/
theorem insertByNum_perm (x : String × Nat) (l : List (String × Nat)) :
    (insertByNum x l).Perm (x :: l) := by
  induction l with
  | nil => exact List.Perm.refl _
  | cons y ys ih =>
    unfold insertByNum
    split
    · exact List.Perm.refl _
    · exact (ih.cons y).trans (List.Perm.swap x y ys)

/-- The stable sort is a permutation of the ledger. -/
theorem sortByNum_perm (l : List (String × Nat)) : (sortByNum l).Perm l := by
  induction l with
  | nil => exact List.Perm.refl _
  | cons x xs ih => exact (insertByNum_perm x (sortByNum xs)).trans (ih.cons x)

/-- Insertion preserves sortedness by citation number. -/
theorem insertByNum_sorted (x : String × Nat) (l : List (String × Nat))
    (h : l.Pairwise (fun a b => a.2 ≤ b.2)) :
    (insertByNum x l).Pairwise (fun a b => a.2 ≤ b.2) := by
  induction l with
  | nil => exact List.pairwise_singleton _ _
  | cons y ys ih =>
    rw [List.pairwise_cons] at h
    unfold insertByNum
    split
    · rename_i hlt
      refine List.Pairwise.cons ?_ (List.Pairwise.cons h.1 h.2)
      intro z hz
      rcases List.mem_cons.mp hz with rfl | hz
      · exact le_of_lt hlt
      · exact le_trans (le_of_lt hlt) (h.1 z hz)
    · rename_i hge
      refine List.Pairwise.cons ?_ (ih h.2)
      intro z hz
      rcases List.mem_cons.mp ((insertByNum_perm x ys).mem_iff.mp hz) with rfl | hz
      · exact le_of_not_lt hge
      · exact h.1 z hz

/-- The stable sort is sorted by citation number. -/
theorem sortByNum_sorted (l : List (String × Nat)) :
    (sortByNum l).Pairwise (fun a b => a.2 ≤ b.2) := by
  induction l with
  | nil => exact List.Pairwise.nil
  | cons x xs ih => exact insertByNum_sorted x _ ih

/-- With pairwise-distinct citation numbers the sorted numbers are strictly
ascending. -/
theorem sortByNum_strict (l : List (String × Nat)) (h : (l.map Prod.snd).Nodup) :
    ((sortByNum l).map Prod.snd).Pairwise (· < ·) := by
  have hperm : ((sortByNum l).map Prod.snd).Perm (l.map Prod.snd) :=
    (sortByNum_perm l).map Prod.snd
  have hnd : ((sortByNum l).map Prod.snd).Nodup := hperm.nodup_iff.mpr h
  have hs : ((sortByNum l).map Prod.snd).Pairwise (· ≤ ·) := by
    rw [List.pairwise_map]
    exact sortByNum_sorted l
  exact (hs.and hnd).imp fun hab => lt_of_le_of_ne hab.1 hab.2

/-- When every ledger id resolves in the pool, the entry loop succeeds and each entry
is the citation text of the record, stripped of pre-existing numbering, with the ledger
number prepended. -/
theorem buildRefEntries_forall (pool : List Lit) (l : List (String × Nat))
    (h : ∀ p ∈ l, (litFind pool p.1).isSome = true) :
    ∃ es, buildRefEntries pool l = some es ∧
      List.Forall₂ (fun (p : String × Nat) (e : String) =>
        ∃ lit, litFind pool p.1 = some lit ∧
          e = "[" ++ toString p.2 ++ "] " ++ cleanLeadingNum lit.full_citation) l es := by
  induction l with
  | nil => exact ⟨[], rfl, List.Forall₂.nil⟩
  | cons p rest ih =>
    obtain ⟨lid, n⟩ := p
    obtain ⟨lit, hlit⟩ := Option.isSome_iff_exists.mp (h _ (List.mem_cons_self _ _))
    obtain ⟨es, hes, hf⟩ := ih fun q hq => h q (List.mem_cons_of_mem _ hq)
    refine ⟨("[" ++ toString n ++ "] " ++ cleanLeadingNum lit.full_citation) :: es, ?_,
      List.Forall₂.cons ⟨lit, hlit, rfl⟩ hf⟩
    unfold buildRefEntries
    rw [hlit, hes]
    rfl

/-- C8: `generate_reference_list` renders exactly one entry per ledger record
(the sorted items are a permutation of the ledger), in strictly ascending citation
number when the ledger numbers are pairwise distinct, each entry being
`[N] <citation text stripped of pre-existing leading numbering>`, with consecutive
entries separated by a blank line (`\n\n`). -/
theorem c8_reference_list (st : CMState) (pool : List Lit)
    (hne : st.citation_tracker ≠ [])
    (hnodup : (st.citation_tracker.map Prod.snd).Nodup)
    (hfind : ∀ p ∈ st.citation_tracker, (litFind pool p.1).isSome = true) :
    (sortByNum st.citation_tracker).Perm st.citation_tracker ∧
    ((sortByNum st.citation_tracker).map Prod.snd).Pairwise (· < ·) ∧
    ∃ entries, generate_reference_list st pool = some (String.intercalate "\n\n" entries) ∧
      List.Forall₂ (fun (p : String × Nat) (e : String) =>
        ∃ lit, litFind pool p.1 = some lit ∧
          e = "[" ++ toString p.2 ++ "] " ++ cleanLeadingNum lit.full_citation)
        (sortByNum st.citation_tracker) entries := by
  refine ⟨sortByNum_perm _, sortByNum_strict _ hnodup, ?_⟩
  have hfind2 : ∀ p ∈ sortByNum st.citation_tracker, (litFind pool p.1).isSome = true :=
    fun p hp => hfind p ((sortByNum_perm _).mem_iff.mp hp)
  obtain ⟨es, hes, hf⟩ := buildRefEntries_forall pool _ hfind2
  refine ⟨es, ?_, hf⟩
  unfold generate_reference_list
  rw [if_neg hne]
  dsimp only
  rw [hes]
  rfl

/-- Fixture ledger for the reference-list witness, inserted out of numeric order. -/
def refState : CMState :=
  { citationInit 25 with citation_tracker := [("litB", 2), ("litA", 1)] }

/-- Fixture pool for the reference-list witness. -/
def refPool : List Lit := [litA, litB]

/-- Witness for C8 at a concrete two-entry ledger. -/
theorem c8_reference_list_witness :
    (sortByNum refState.citation_tracker).Perm refState.citation_tracker ∧
    ((sortByNum refState.citation_tracker).map Prod.snd).Pairwise (· < ·) ∧
    ∃ entries, generate_reference_list refState refPool =
        some (String.intercalate "\n\n" entries) ∧
      List.Forall₂ (fun (p : String × Nat) (e : String) =>
        ∃ lit, litFind refPool p.1 = some lit ∧
          e = "[" ++ toString p.2 ++ "] " ++ cleanLeadingNum lit.full_citation)
        (sortByNum refState.citation_tracker) entries :=
  c8_reference_list refState refPool (by decide) (by decide) (by decide)

/-- Folding `max` over an appended score. -/
theorem foldl_max_append (rs : List (String × ℚ)) (r : String × ℚ) :
    (((rs ++ [r]).map Prod.snd).foldl max 0) = max ((rs.map Prod.snd).foldl max 0) r.2 := by
  simp [List.foldl_append]

/-- Invariant of the round loop: starting from any state whose best score is the
running maximum (seeded at 0 with the draft), the loop returns the review list
extended by the later rounds, a final score equal to the maximum of 0 and all round
scores, a final paper that is either the draft at score 0 or one of the reviewed
round papers together with its score, a final score dominating every round score,
and — when no round ever scores positively — the incoming best paper unchanged. -/
theorem reviewLoop_spec (f : Nat → String → String × ℚ) (t : ℚ) (draft : String) :
    ∀ (rem n : Nat) (cur best : String) (bs : ℚ) (rs : List (String × ℚ)),
      0 ≤ bs →
      bs = (rs.map Prod.snd).foldl max 0 →
      ((best = draft ∧ bs = 0) ∨ (best, bs) ∈ rs) →
      (∀ x ∈ rs, x.2 ≤ bs) →
      (∃ suffix, (reviewLoop f t rem n cur best bs rs).all_reviews = rs ++ suffix) ∧
      (reviewLoop f t rem n cur best bs rs).final_score =
        ((reviewLoop f t rem n cur best bs rs).all_reviews.map Prod.snd).foldl max 0 ∧
      (((reviewLoop f t rem n cur best bs rs).final_paper = draft ∧
         (reviewLoop f t rem n cur best bs rs).final_score = 0) ∨
        ((reviewLoop f t rem n cur best bs rs).final_paper,
         (reviewLoop f t rem n cur best bs rs).final_score) ∈
          (reviewLoop f t rem n cur best bs rs).all_reviews) ∧
      (∀ x ∈ (reviewLoop f t rem n cur best bs rs).all_reviews,
        x.2 ≤ (reviewLoop f t rem n cur best bs rs).final_score) ∧
      ((∀ x ∈ (reviewLoop f t rem n cur best bs rs).all_reviews, x.2 ≤ 0) →
        (reviewLoop f t rem n cur best bs rs).final_paper = best ∧
        (reviewLoop f t rem n cur best bs rs).final_score = bs) := by
  intro rem
  induction rem with
  | zero =>
    intro n cur best bs rs h0 h1 h2 h3
    exact ⟨⟨[], (List.append_nil rs).symm⟩, h1, h2, h3, fun _ => ⟨rfl, rfl⟩⟩
  | succ rem ih =>
    intro n cur best bs rs h0 h1 h2 h3
    simp only [reviewLoop]
    by_cases hacc : (f (n + 1) cur).2 > bs
    · rw [if_pos hacc]
      dsimp only
      have hb2 : 0 ≤ (f (n + 1) cur).2 := le_trans h0 (le_of_lt hacc)
      have hfold : (f (n + 1) cur).2 =
          (((rs ++ [f (n + 1) cur]).map Prod.snd).foldl max 0) := by
        rw [foldl_max_append, ← h1, max_eq_right (le_of_lt hacc)]
      have hmem : ((f (n + 1) cur).1, (f (n + 1) cur).2) ∈ rs ++ [f (n + 1) cur] := by
        simp
      have hall : ∀ x ∈ rs ++ [f (n + 1) cur], x.2 ≤ (f (n + 1) cur).2 := by
        intro x hx
        rcases List.mem_append.mp hx with hx | hx
        · exact le_trans (h3 x hx) (le_of_lt hacc)
        · rw [List.mem_singleton.mp hx]
      by_cases hstop : (f (n + 1) cur).2 ≥ t
      · rw [if_pos hstop]
        refine ⟨⟨[f (n + 1) cur], rfl⟩, hfold, Or.inr hmem, hall, ?_⟩
        intro hz
        exfalso
        have : (f (n + 1) cur).2 ≤ 0 := hz _ (by simp)
        linarith
      · rw [if_neg hstop]
        obtain ⟨⟨suffix, hsuf⟩, hsc, hdis, hle, _⟩ :=
          ih (n + 1) (f (n + 1) cur).1 (f (n + 1) cur).1 (f (n + 1) cur).2
            (rs ++ [f (n + 1) cur]) hb2 hfold (Or.inr hmem) hall
        refine ⟨⟨[f (n + 1) cur] ++ suffix, by rw [hsuf, List.append_assoc]⟩,
          hsc, hdis, hle, ?_⟩
        intro hz
        exfalso
        have hrin : f (n + 1) cur ∈
            (reviewLoop f t rem (n + 1) (f (n + 1) cur).1 (f (n + 1) cur).1
              (f (n + 1) cur).2 (rs ++ [f (n + 1) cur])).all_reviews := by
          rw [hsuf]
          exact List.mem_append_left _ (by simp)
        have : (f (n + 1) cur).2 ≤ 0 := hz _ hrin
        linarith
    · rw [if_neg hacc]
      dsimp only
      have hble : (f (n + 1) cur).2 ≤ bs := le_of_not_lt hacc
      have hfold : bs = (((rs ++ [f (n + 1) cur]).map Prod.snd).foldl max 0) := by
        rw [foldl_max_append, ← h1, max_eq_left hble]
      have hdis2 : (best = draft ∧ bs = 0) ∨ (best, bs) ∈ rs ++ [f (n + 1) cur] := by
        rcases h2 with h2 | h2
        · exact Or.inl h2
        · exact Or.inr (List.mem_append_left _ h2)
      have hall : ∀ x ∈ rs ++ [f (n + 1) cur], x.2 ≤ bs := by
        intro x hx
        rcases List.mem_append.mp hx with hx | hx
        · exact h3 x hx
        · rw [List.mem_singleton.mp hx]; exact hble
      by_cases hstop : bs ≥ t
      · rw [if_pos hstop]
        exact ⟨⟨[f (n + 1) cur], rfl⟩, hfold, hdis2, hall, fun _ => ⟨rfl, rfl⟩⟩
      · rw [if_neg hstop]
        obtain ⟨⟨suffix, hsuf⟩, hsc, hdis, hle, hz0⟩ :=
          ih (n + 1) best best bs (rs ++ [f (n + 1) cur]) h0 hfold hdis2 hall
        exact ⟨⟨[f (n + 1) cur] ++ suffix, by rw [hsuf, List.append_assoc]⟩,
          hsc, hdis, hle, fun hz => hz0 hz⟩

/-- The loop only ever appends to the running review list. -/
theorem reviewLoop_reviews_extend (f : Nat → String → String × ℚ) (t : ℚ) :
    ∀ (rem n : Nat) (cur best : String) (bs : ℚ) (rs : List (String × ℚ)),
      ∃ suffix, (reviewLoop f t rem n cur best bs rs).all_reviews = rs ++ suffix := by
  intro rem
  induction rem with
  | zero =>
    intro n cur best bs rs
    exact ⟨[], (List.append_nil rs).symm⟩
  | succ rem ih =>
    intro n cur best bs rs
    simp only [reviewLoop]
    by_cases hacc : (f (n + 1) cur).2 > bs
    · rw [if_pos hacc]
      dsimp only
      by_cases hstop : (f (n + 1) cur).2 ≥ t
      · rw [if_pos hstop]
        exact ⟨[f (n + 1) cur], rfl⟩
      · rw [if_neg hstop]
        obtain ⟨suffix, hsuf⟩ := ih (n + 1) (f (n + 1) cur).1 (f (n + 1) cur).1
          (f (n + 1) cur).2 (rs ++ [f (n + 1) cur])
        exact ⟨[f (n + 1) cur] ++ suffix, by rw [hsuf, List.append_assoc]⟩
    · rw [if_neg hacc]
      dsimp only
      by_cases hstop : bs ≥ t
      · rw [if_pos hstop]
        exact ⟨[f (n + 1) cur], rfl⟩
      · rw [if_neg hstop]
        obtain ⟨suffix, hsuf⟩ := ih (n + 1) best best bs (rs ++ [f (n + 1) cur])
        exact ⟨[f (n + 1) cur] ++ suffix, by rw [hsuf, List.append_assoc]⟩

/-- Round 1 always runs on the caller-supplied draft and opens the review list. -/
theorem reviewLoop_first (f : Nat → String → String × ℚ) (t : ℚ) (draft : String) (m : Nat) :
    ∃ suffix, (reviewLoop f t (m + 1) 0 draft draft 0 []).all_reviews =
      f 1 draft :: suffix := by
  have h := reviewLoop_reviews_extend f t (m + 1) 0 draft draft 0 []
  simp only [reviewLoop] at h ⊢
  by_cases hacc : (f (0 + 1) draft).2 > 0
  · rw [if_pos hacc]
    dsimp only
    by_cases hstop : (f (0 + 1) draft).2 ≥ t
    · rw [if_pos hstop]
      exact ⟨[], rfl⟩
    · rw [if_neg hstop]
      obtain ⟨suffix, hsuf⟩ := reviewLoop_reviews_extend f t m (0 + 1) (f (0 + 1) draft).1
        (f (0 + 1) draft).1 (f (0 + 1) draft).2 ([] ++ [f (0 + 1) draft])
      exact ⟨suffix, hsuf⟩
  · rw [if_neg hacc]
    dsimp only
    by_cases hstop : (0 : ℚ) ≥ t
    · rw [if_pos hstop]
      exact ⟨[], rfl⟩
    · rw [if_neg hstop]
      obtain ⟨suffix, hsuf⟩ := reviewLoop_reviews_extend f t m (0 + 1) draft draft 0
        ([] ++ [f (0 + 1) draft])
      exact ⟨suffix, hsuf⟩

/-- C2: in the refinement controller a round becomes the new best exactly under the
strict comparison against the best so far, seeded at 0 with the caller-supplied
draft; consequently the returned score is the maximum of 0 and all executed round
scores, the returned document is the draft (at score 0) or a reviewed round document
carrying exactly the returned score, every round score is dominated by the returned
score (so the final score is at least the score of round 1, which always runs on the
draft), and when no round scores positively the draft itself is returned. -/
theorem c2_refinement_controller (f : Nat → String → String × ℚ) (t : ℚ)
    (max_rounds : Nat) (draft : String) (h : 1 ≤ max_rounds) :
    (review_and_optimize_iteratively f t max_rounds draft).all_reviews.head? =
      some (f 1 draft) ∧
    (review_and_optimize_iteratively f t max_rounds draft).final_score =
      ((review_and_optimize_iteratively f t max_rounds draft).all_reviews.map
        Prod.snd).foldl max 0 ∧
    (((review_and_optimize_iteratively f t max_rounds draft).final_paper = draft ∧
       (review_and_optimize_iteratively f t max_rounds draft).final_score = 0) ∨
      ((review_and_optimize_iteratively f t max_rounds draft).final_paper,
       (review_and_optimize_iteratively f t max_rounds draft).final_score) ∈
        (review_and_optimize_iteratively f t max_rounds draft).all_reviews) ∧
    (∀ x ∈ (review_and_optimize_iteratively f t max_rounds draft).all_reviews,
      x.2 ≤ (review_and_optimize_iteratively f t max_rounds draft).final_score) ∧
    (f 1 draft).2 ≤ (review_and_optimize_iteratively f t max_rounds draft).final_score ∧
    ((∀ x ∈ (review_and_optimize_iteratively f t max_rounds draft).all_reviews,
        x.2 ≤ 0) →
      (review_and_optimize_iteratively f t max_rounds draft).final_paper = draft) := by
  obtain ⟨m, rfl⟩ : ∃ m, max_rounds = m + 1 := by
    cases max_rounds with
    | zero => omega
    | succ m => exact ⟨m, rfl⟩
  have main := reviewLoop_spec f t draft (m + 1) 0 draft draft 0 [] le_rfl rfl
    (Or.inl ⟨rfl, rfl⟩) (by intro x hx; cases hx)
  obtain ⟨suffix, hsuf⟩ := reviewLoop_first f t draft m
  obtain ⟨_, hsc, hdis, hle, hz⟩ := main
  have hhead : (review_and_optimize_iteratively f t (m + 1) draft).all_reviews.head? =
      some (f 1 draft) := by
    unfold review_and_optimize_iteratively
    rw [hsuf]
    rfl
  have hmem1 : f 1 draft ∈ (review_and_optimize_iteratively f t (m + 1) draft).all_reviews := by
    unfold review_and_optimize_iteratively
    rw [hsuf]
    exact List.mem_cons_self _ _
  exact ⟨hhead, hsc, hdis, hle, hle _ hmem1, fun hall => (hz hall).1⟩

/-- Concrete single-round oracle for the C2 witness: round 1 scores 62, every later
round scores 58 (the regression scenario of the specification). -/
def roundOracle : Nat → String → String × ℚ :=
  fun n p => (p ++ "+", if n = 1 then 62 else 58)

/-- Witness for C2 at the 62-then-58 oracle over three rounds with target 90. -/
theorem c2_refinement_controller_witness :
    (review_and_optimize_iteratively roundOracle 90 3 "draft").all_reviews.head? =
      some (roundOracle 1 "draft") ∧
    (review_and_optimize_iteratively roundOracle 90 3 "draft").final_score =
      ((review_and_optimize_iteratively roundOracle 90 3 "draft").all_reviews.map
        Prod.snd).foldl max 0 ∧
    (((review_and_optimize_iteratively roundOracle 90 3 "draft").final_paper = "draft" ∧
       (review_and_optimize_iteratively roundOracle 90 3 "draft").final_score = 0) ∨
      ((review_and_optimize_iteratively roundOracle 90 3 "draft").final_paper,
       (review_and_optimize_iteratively roundOracle 90 3 "draft").final_score) ∈
        (review_and_optimize_iteratively roundOracle 90 3 "draft").all_reviews) ∧
    (∀ x ∈ (review_and_optimize_iteratively roundOracle 90 3 "draft").all_reviews,
      x.2 ≤ (review_and_optimize_iteratively roundOracle 90 3 "draft").final_score) ∧
    (roundOracle 1 "draft").2 ≤
      (review_and_optimize_iteratively roundOracle 90 3 "draft").final_score ∧
    ((∀ x ∈ (review_and_optimize_iteratively roundOracle 90 3 "draft").all_reviews,
        x.2 ≤ 0) →
      (review_and_optimize_iteratively roundOracle 90 3 "draft").final_paper = "draft") :=
  c2_refinement_controller roundOracle 90 3 "draft" (by decide)

/-- Fixture synthesis text that genuinely awards 60/100 through extraction pattern 1. -/
def genuineSixty : String := "综合评分: 60/100"

/-- C10: the value 60.0 doubles as the extraction-failure sentinel.  Whenever
`_extract_comprehensive_score` returns exactly 60 the round replaces the integrated
score by the sum of the four per-axis expert scores provided that sum is positive
(and keeps 60 otherwise), while any extracted value other than 60 is used as-is; in
particular the fixture text genuinely awarding 60/100 is overridden to the per-axis
sum 70. -/
theorem c10_sixty_sentinel (text : String) (e1 e2 e3 e4 : ℚ) :
    (extract_comprehensive_score text = 60 → 0 < e1 + e2 + e3 + e4 →
      single_round_comprehensive_score text e1 e2 e3 e4 = e1 + e2 + e3 + e4) ∧
    (extract_comprehensive_score text = 60 → e1 + e2 + e3 + e4 ≤ 0 →
      single_round_comprehensive_score text e1 e2 e3 e4 = 60) ∧
    (extract_comprehensive_score text ≠ 60 →
      single_round_comprehensive_score text e1 e2 e3 e4 = extract_comprehensive_score text) ∧
    extract_comprehensive_score genuineSixty = 60 ∧
    single_round_comprehensive_score genuineSixty 20 20 15 15 = 70 ∧
    (70 : ℚ) ≠ 60 := by
  refine ⟨?_, ?_, ?_, by decide, ?_, by norm_num⟩
  · intro h hpos
    unfold single_round_comprehensive_score
    rw [h, if_pos rfl, if_pos hpos]
  · intro h hnp
    unfold single_round_comprehensive_score
    rw [h, if_pos rfl, if_neg (not_lt.mpr hnp)]
  · intro h
    unfold single_round_comprehensive_score
    rw [if_neg h]
  · have h1 : extract_comprehensive_score genuineSixty = 60 := by decide
    unfold single_round_comprehensive_score
    rw [h1, if_pos rfl, if_pos (by norm_num : (0 : ℚ) < 20 + 20 + 15 + 15)]
    norm_num

/-- Witness for C10: the sentinel replacement applied at the genuine-60 fixture. -/
theorem c10_sixty_sentinel_witness :
    single_round_comprehensive_score genuineSixty 20 20 15 15 = 20 + 20 + 15 + 15 :=
  (c10_sixty_sentinel genuineSixty 20 20 15 15).1 (by decide)
    (add_pos (add_pos (add_pos (by decide : (0 : ℚ) < 20) (by decide : (0 : ℚ) < 20))
      (by decide : (0 : ℚ) < 15)) (by decide : (0 : ℚ) < 15))
